import Mathlib

/-!
Verification of the user-account subsystem of radovskyb/services.

The development shallowly embeds the repository's Go source:
* `User` mirrors the record stored by the repository (package `user`).
* `mockRepo` mirrors the in-memory repository of `user/datastore/mock.go`.
  Go maps are modelled as functions into `Option`; the `nil` maps that
  `Close` leaves behind are modelled by the `closed` flag together with
  emptied maps (a lookup in a `nil` Go map reports absence).
* The validation and authentication layer of `user/auth/auth.go` is embedded
  as pure functions; the bcrypt library calls are kept abstract as an oracle
  argument describing the outcome of a comparison.
* The error-classification control flow of `mysqlRepo.Create`
  (`user/datastore/mysql.go`) is embedded as a function of the outcomes of
  the database calls it makes.
-/

namespace Services

/-- User record, package `user`: id, email, username, password. -/
structure User where
  id : Int
  email : String
  username : String
  password : String
deriving DecidableEq, Repr

/-- Errors of the datastore and auth layers.  `duplicateEmail`,
`duplicateUsername` and `userNotFound` are the domain errors of
`user/datastore/store.go`; `wrongPassword` is `auth.ErrWrongPassword`;
`transport` stands for an opaque Go `error` carrying a message (such as the
closed-database error of the mock, or a wrapped driver error);
`bcryptFailure` is an error propagated from the bcrypt library; the last
five are the validation errors of `user/auth/auth.go`. -/
inductive Err where
  | duplicateEmail
  | duplicateUsername
  | userNotFound
  | wrongPassword
  | transport (msg : String)
  | bcryptFailure (msg : String)
  | emptyRequiredField
  | invalidEmail
  | invalidUsername
  | invalidUsernameLength
  | passwordTooShort
deriving DecidableEq, Repr

/-- Outcome of a call to `bcrypt.CompareHashAndPassword`: success, the
mismatch error `bcrypt.ErrMismatchedHashAndPassword`, or any other failure
(for instance a malformed stored hash). -/
inductive BcryptOutcome where
  | ok
  | mismatch
  | failure (msg : String)
deriving DecidableEq, Repr

/-- Outcome of a `db.Exec` call in the MySQL-backed repository: success, a
`*mysql.MySQLError` with its error number, or a non-MySQL driver error. -/
inductive SqlOutcome where
  | ok
  | mysqlErr (number : Nat) (msg : String)
  | otherErr (msg : String)
deriving DecidableEq, Repr

/-- Go map assignment `m[k] = v`, on maps modelled as `α → Option β`. -/
def mapSet {α β : Type} [DecidableEq α] (m : α → Option β) (k : α) (v : β) :
    α → Option β :=
  fun x => if x = k then some v else m x

/-- Go map deletion `delete(m, k)`. -/
def mapDel {α β : Type} [DecidableEq α] (m : α → Option β) (k : α) :
    α → Option β :=
  fun x => if x = k then none else m x

theorem mapSet_self {α β : Type} [DecidableEq α] (m : α → Option β) (k : α)
    (v : β) : mapSet m k v k = some v := by
  simp [mapSet]

theorem mapSet_other {α β : Type} [DecidableEq α] (m : α → Option β)
    {k x : α} (v : β) (h : x ≠ k) : mapSet m k v x = m x := by
  simp [mapSet, h]

theorem mapDel_self {α β : Type} [DecidableEq α] (m : α → Option β) (k : α) :
    mapDel m k k = none := by
  simp [mapDel]

theorem mapDel_other {α β : Type} [DecidableEq α] (m : α → Option β)
    {k x : α} (h : x ≠ k) : mapDel m k x = m x := by
  simp [mapDel, h]

/-- State of the in-memory repository `mockRepo` of
`user/datastore/mock.go`: the auto-incrementing id counter and the three
indices (id, email and username, each to the stored user).  The mutex is
not modelled: every operation is a single atomic step.  `closed` records
that `Close` set the Go maps to `nil`. -/
structure mockRepo where
  closed : Bool
  idCnt : Int
  users : Int → Option User
  emails : String → Option User
  usernames : String → Option User

/-- `datastore.NewMockRepo`: an open repository with empty indices and the
id counter at zero. -/
def NewMockRepo : mockRepo :=
  { closed := false
    idCnt := 0
    users := fun _ => none
    emails := fun _ => none
    usernames := fun _ => none }

/-- `mockRepo.Close` sets the three maps to `nil`. -/
def mockRepo.Close (s : mockRepo) : mockRepo :=
  { s with
    closed := true
    users := fun _ => none
    emails := fun _ => none
    usernames := fun _ => none }

/-- `mockRepo.Create`: reports the closed database, increments the id
counter, refuses an already-present email and then an already-present
username, and otherwise stores the user (whose id is set to the counter)
under all three indices.  The returned user carries the assigned id,
mirroring the in-place mutation `u.Id = s.idCnt`. -/
def mockRepo.Create (s : mockRepo) (u : User) : Except Err User × mockRepo :=
  if s.closed then (.error (.transport "database is closed"), s)
  else
    let c := s.idCnt + 1
    match s.emails u.email with
    | some _ => (.error .duplicateEmail, { s with idCnt := c })
    | none =>
      match s.usernames u.username with
      | some _ => (.error .duplicateUsername, { s with idCnt := c })
      | none =>
        let u2 : User := { u with id := c }
        (.ok u2,
          { closed := s.closed
            idCnt := c
            users := mapSet s.users c u2
            emails := mapSet s.emails u.email u2
            usernames := mapSet s.usernames u.username u2 })

/-- `mockRepo.Get`: looks up by id; the returned record is a copy, which in
this value-level model is the stored value itself. -/
def mockRepo.Get (s : mockRepo) (id : Int) : Except Err User :=
  match s.users id with
  | none => .error .userNotFound
  | some u => .ok u

/-- `mockRepo.GetByEmail`. -/
def mockRepo.GetByEmail (s : mockRepo) (email : String) : Except Err User :=
  match s.emails email with
  | none => .error .userNotFound
  | some u => .ok u

/-- `mockRepo.GetByUsername`. -/
def mockRepo.GetByUsername (s : mockRepo) (username : String) :
    Except Err User :=
  match s.usernames username with
  | none => .error .userNotFound
  | some u => .ok u

/-- The duplicate test of `mockRepo.Update`: a key is in conflict when it is
present and the holder's id differs from the id of the record being
updated. -/
def idConflict (found : Option User) (oldId : Int) : Bool :=
  match found with
  | some u2 => decide (u2.id ≠ oldId)
  | none => false

/-- `mockRepo.Update`: requires the id to exist, refuses an email or
username held by a different record (email first), then replaces the stored
record and re-keys the email and username indices (delete the old key, add
the new one). -/
def mockRepo.Update (s : mockRepo) (u : User) : Except Err Unit × mockRepo :=
  match s.users u.id with
  | none => (.error .userNotFound, s)
  | some old =>
    if idConflict (s.emails u.email) old.id then (.error .duplicateEmail, s)
    else if idConflict (s.usernames u.username) old.id then
      (.error .duplicateUsername, s)
    else
      (.ok (),
        { s with
          users := mapSet s.users u.id u
          emails := mapSet (mapDel s.emails old.email) u.email u
          usernames := mapSet (mapDel s.usernames old.username) u.username u })

/-- `mockRepo.Delete`: requires the id to exist and removes the record from
all three indices. -/
def mockRepo.Delete (s : mockRepo) (id : Int) : Except Err Unit × mockRepo :=
  match s.users id with
  | none => (.error .userNotFound, s)
  | some u =>
    (.ok (),
      { s with
        users := mapDel s.users id
        emails := mapDel s.emails u.email
        usernames := mapDel s.usernames u.username })

/-- A state-changing repository operation, for reasoning about arbitrary
operation sequences. -/
inductive Op where
  | create (u : User)
  | update (u : User)
  | delete (id : Int)
deriving DecidableEq, Repr

/-- Run one operation for its state effect. -/
def applyOp (s : mockRepo) : Op → mockRepo
  | .create u => (s.Create u).2
  | .update u => (s.Update u).2
  | .delete id => (s.Delete id).2

/-- Run a sequence of operations from a starting state. -/
def runOps (s : mockRepo) (ops : List Op) : mockRepo :=
  ops.foldl applyOp s

/-- Character class `[A-Z0-9a-z._%+-]` of the local part of
`auth.emailRegexp`. -/
def isLocalChar (c : Char) : Bool :=
  c.isUpper || c.isDigit || c.isLower ||
    c == '.' || c == '_' || c == '%' || c == '+' || c == '-'

/-- Character class `[A-Za-z0-9.-]` of the domain part of
`auth.emailRegexp`. -/
def isDomainChar (c : Char) : Bool :=
  c.isAlpha || c.isDigit || c == '.' || c == '-'

/-- Character class `[A-Za-z]` of the TLD part of `auth.emailRegexp`. -/
def isTldChar (c : Char) : Bool :=
  c.isAlpha

/-- All decompositions of a list into a prefix and the matching suffix. -/
def splits {α : Type} : List α → List (List α × List α)
  | [] => [([], [])]
  | a :: rest => ([], a :: rest) :: (splits rest).map (fun p => (a :: p.1, p.2))

/-- A full (anchored) match of the pattern
`[A-Z0-9a-z._%+-]+@[A-Za-z0-9.-]+\.[A-Za-z]{2,6}` against a whole character
list: some decomposition `local ++ @ ++ domain ++ . ++ tld` with a
non-empty all-local-class local part, a non-empty all-domain-class domain
part, and a 2–6 letter tld. -/
def matchesEmailFull (cs : List Char) : Bool :=
  (splits cs).any fun p =>
    !p.1.isEmpty && p.1.all isLocalChar &&
      match p.2 with
      | '@' :: r2 =>
        (splits r2).any fun q =>
          !q.1.isEmpty && q.1.all isDomainChar &&
            match q.2 with
            | '.' :: t =>
              decide (2 ≤ t.length) && decide (t.length ≤ 6) && t.all isTldChar
            | _ => false
      | _ => false

/-- `emailRegexp.MatchString`: Go's `MatchString` is unanchored, so it
reports whether some contiguous substring matches the pattern. -/
def containsEmailMatch (cs : List Char) : Bool :=
  (splits cs).any fun p => (splits p.2).any fun q => matchesEmailFull q.1

/-- `emailRegexp.MatchString s` on a Lean string. -/
def emailRegexpMatch (s : String) : Bool :=
  containsEmailMatch s.data

/-- Modelled fragment of the Go standard library predicate
`unicode.IsLetter`: ASCII letters together with the basic Cyrillic letters
U+0410–U+044F, the only code points this development exercises.  Go's table
covers every Unicode letter category. -/
def unicodeIsLetter (c : Char) : Bool :=
  c.isAlpha || (decide (0x410 ≤ c.toNat) && decide (c.toNat ≤ 0x44F))

/-- Modelled fragment of the Go standard library predicate
`unicode.IsNumber`: ASCII digits, the only numeric code points this
development exercises.  Go's table covers every Unicode number category. -/
def unicodeIsNumber (c : Char) : Bool :=
  c.isDigit

/-- `auth.isAlphanumeric`: every rune of the string is a Unicode letter or
number. -/
def isAlphanumeric (str : String) : Bool :=
  str.data.all fun r => unicodeIsLetter r || unicodeIsNumber r

/-- Number of bytes of the UTF-8 encoding of a character, as Go counts
them. -/
def charUtf8Size (c : Char) : Nat :=
  if c.toNat < 0x80 then 1
  else if c.toNat < 0x800 then 2
  else if c.toNat < 0x10000 then 3
  else 4

/-- Go `len` on a string: the number of bytes of its UTF-8 encoding (not
the number of characters). -/
def goLen (s : String) : Nat :=
  (s.data.map charUtf8Size).sum

/-- `auth.ValidateUser`: empty required fields, then the email pattern,
then the username character set, then the username length in bytes, then
the password length in bytes; the first failing check produces the
error. -/
def ValidateUser (u : User) : Except Err Unit :=
  if u.email = "" ∨ u.username = "" ∨ u.password = "" then
    .error .emptyRequiredField
  else if emailRegexpMatch u.email = false then .error .invalidEmail
  else if isAlphanumeric u.username = false then .error .invalidUsername
  else if goLen u.username < 3 ∨ 25 < goLen u.username then
    .error .invalidUsernameLength
  else if goLen u.password < 6 then .error .passwordTooShort
  else .ok ()

/-- Check (a) of `ValidateUser`: some required field is empty. -/
def hasEmptyField (u : User) : Prop :=
  u.email = "" ∨ u.username = "" ∨ u.password = ""

instance (u : User) : Decidable (hasEmptyField u) := by
  unfold hasEmptyField; infer_instance

/-- Check (b) of `ValidateUser` fails: the email does not match
`auth.emailRegexp`. -/
def failsEmailCheck (u : User) : Prop :=
  emailRegexpMatch u.email = false

/-- Check (c) of `ValidateUser` fails: the username has a character that is
neither a Unicode letter nor a Unicode number. -/
def failsUsernameChars (u : User) : Prop :=
  isAlphanumeric u.username = false

/-- Check (d) of `ValidateUser` fails: the username byte length is outside
3–25. -/
def failsUsernameLength (u : User) : Prop :=
  goLen u.username < 3 ∨ 25 < goLen u.username

/-- Check (e) of `ValidateUser` fails: the password byte length is below
6. -/
def failsPasswordLength (u : User) : Prop :=
  goLen u.password < 6

instance (u : User) : Decidable (failsEmailCheck u) := by
  unfold failsEmailCheck; infer_instance

instance (u : User) : Decidable (failsUsernameChars u) := by
  unfold failsUsernameChars; infer_instance

instance (u : User) : Decidable (failsUsernameLength u) := by
  unfold failsUsernameLength; infer_instance

instance (u : User) : Decidable (failsPasswordLength u) := by
  unfold failsPasswordLength; infer_instance

/-- Modelled from the spec: an email "matches a simple RFC-lite pattern
`local@domain.tld`" where "the whole email, not merely some substring of
it, must have this shape" — the anchored match of the pattern against the
entire string. -/
def specWholeEmailShape (s : String) : Bool :=
  matchesEmailFull s.data

/-- `auth.CompareHashAndPassword`, as a function of the outcome that the
bcrypt library reports for the stored hash and the supplied password: `nil`
on success, `ErrWrongPassword` exactly for
`bcrypt.ErrMismatchedHashAndPassword`, and any other bcrypt error
unmodified. -/
def CompareHashAndPassword (bc : String → String → BcryptOutcome)
    (hash password : String) : Except Err Unit :=
  match bc hash password with
  | .ok => .ok ()
  | .mismatch => .error .wrongPassword
  | .failure msg => .error (.bcryptFailure msg)

/-- `auth.AuthenticateUser`: look the user up by email, propagate a lookup
error, compare the stored hash with the supplied password, propagate a
comparison error, and otherwise return the user. -/
def AuthenticateUser (bc : String → String → BcryptOutcome) (s : mockRepo)
    (email password : String) : Except Err User :=
  match s.GetByEmail email with
  | .error e => .error e
  | .ok u =>
    match CompareHashAndPassword bc u.password password with
    | .error e => .error e
    | .ok _ => .ok u

/-- Error result of `mysqlRepo.Create` as a function of the outcome of the
`INSERT` and of the result of `checkDupes` (the latter consulted only on a
MySQL duplicate-entry error 1062): a non-MySQL error is wrapped; a MySQL
error with number 1062 yields the `checkDupes` classification when there is
one; every other path — including a MySQL error with a number other than
1062 — falls through to `return nil`. -/
def mysqlCreate (execOutcome : SqlOutcome) (dupeCheck : Option Err) :
    Option Err :=
  match execOutcome with
  | .ok => none
  | .mysqlErr n _ =>
    if n = 1062 then
      match dupeCheck with
      | some d => some d
      | none => none
    else none
  | .otherErr msg =>
    some (.transport ("error converting to mysql error: " ++ msg))

/-- Well-formedness of a mock repository state: the three indices agree.
Every stored user is keyed by its own id, its email and username indices
point back at it, every index entry is keyed by the corresponding field of
its user and names a stored user, and every key of the id index is bounded
by the id counter (ids are only handed out by the counter). -/
structure WF (s : mockRepo) : Prop where
  idBound : ∀ i u, s.users i = some u → i ≤ s.idCnt
  userId : ∀ i u, s.users i = some u → u.id = i
  userEmail : ∀ i u, s.users i = some u → s.emails u.email = some u
  userUsername : ∀ i u, s.users i = some u → s.usernames u.username = some u
  emailKey : ∀ e u, s.emails e = some u → u.email = e
  emailUser : ∀ e u, s.emails e = some u → s.users u.id = some u
  usernameKey : ∀ n u, s.usernames n = some u → u.username = n
  usernameUser : ∀ n u, s.usernames n = some u → s.users u.id = some u

theorem wf_NewMockRepo : WF NewMockRepo := by
  constructor <;> intro a b h <;> simp [NewMockRepo] at h

theorem wf_Close (s : mockRepo) : WF s.Close := by
  constructor <;> intro a b h <;> simp [mockRepo.Close] at h

/-- The state after `Create` is the old state (closed database), the old
state with the counter incremented (duplicate), or the state with the new
user inserted in all three indices — and in the last case both uniqueness
probes came back empty. -/
theorem Create_snd_cases (s : mockRepo) (u : User) :
    (s.Create u).2 = s ∨
    (s.Create u).2 = { s with idCnt := s.idCnt + 1 } ∨
    ((s.Create u).2 =
        { closed := s.closed
          idCnt := s.idCnt + 1
          users := mapSet s.users (s.idCnt + 1) { u with id := s.idCnt + 1 }
          emails := mapSet s.emails u.email { u with id := s.idCnt + 1 }
          usernames :=
            mapSet s.usernames u.username { u with id := s.idCnt + 1 } } ∧
      s.emails u.email = none ∧ s.usernames u.username = none) := by
  unfold mockRepo.Create
  by_cases hcl : s.closed
  · simp [hcl]
  · cases hse : s.emails u.email <;> cases hsn : s.usernames u.username <;>
      simp [hcl, hse, hsn]

theorem wf_Create (s : mockRepo) (u : User) (wf : WF s) :
    WF (s.Create u).2 := by
  rcases Create_snd_cases s u with h | h | ⟨h, hse, hsn⟩
  · rw [h]; exact wf
  · rw [h]
    exact ⟨fun i v hv =>
        le_trans (wf.idBound i v hv) (le_of_lt (lt_add_one s.idCnt)),
      wf.userId, wf.userEmail, wf.userUsername, wf.emailKey, wf.emailUser,
      wf.usernameKey, wf.usernameUser⟩
  · rw [h]
    set c := s.idCnt + 1 with hc
    set u2 : User := { u with id := c } with hu2
    have husers : ∀ i v, mapSet s.users c u2 i = some v →
        (i = c ∧ v = u2) ∨ (i ≠ c ∧ s.users i = some v) := by
      intro i v h
      by_cases hi : i = c
      · subst hi; rw [mapSet_self] at h
        exact Or.inl ⟨rfl, (Option.some.inj h).symm⟩
      · rw [mapSet_other _ _ hi] at h; exact Or.inr ⟨hi, h⟩
    have hemails : ∀ e v, mapSet s.emails u.email u2 e = some v →
        (e = u.email ∧ v = u2) ∨ (e ≠ u.email ∧ s.emails e = some v) := by
      intro e v h
      by_cases he : e = u.email
      · subst he; rw [mapSet_self] at h
        exact Or.inl ⟨rfl, (Option.some.inj h).symm⟩
      · rw [mapSet_other _ _ he] at h; exact Or.inr ⟨he, h⟩
    have husernames : ∀ n v, mapSet s.usernames u.username u2 n = some v →
        (n = u.username ∧ v = u2) ∨
          (n ≠ u.username ∧ s.usernames n = some v) := by
      intro n v h
      by_cases hn : n = u.username
      · subst hn; rw [mapSet_self] at h
        exact Or.inl ⟨rfl, (Option.some.inj h).symm⟩
      · rw [mapSet_other _ _ hn] at h; exact Or.inr ⟨hn, h⟩
    have hfreshId : ∀ v : User, s.users c = some v → False := by
      intro v hv
      have := wf.idBound c v hv
      simp only [hc] at this
      linarith
    constructor
    · intro i v h
      rcases husers i v h with ⟨hi, _⟩ | ⟨_, h2⟩
      · simp [hi]
      · exact le_trans (wf.idBound i v h2) (by rw [hc]; linarith)
    · intro i v h
      rcases husers i v h with ⟨hi, hv⟩ | ⟨_, h2⟩
      · subst hi; subst hv; rfl
      · exact wf.userId _ _ h2
    · intro i v h
      rcases husers i v h with ⟨hi, hv⟩ | ⟨hi, h2⟩
      · subst hv
        show mapSet s.emails u.email u2 u2.email = some u2
        have : u2.email = u.email := rfl
        rw [this, mapSet_self]
      · have hv : s.emails v.email = some v := wf.userEmail _ _ h2
        have hne : v.email ≠ u.email := by
          intro hee; rw [hee, hse] at hv; exact Option.noConfusion hv
        show mapSet s.emails u.email u2 v.email = some v
        rw [mapSet_other _ _ hne]; exact hv
    · intro i v h
      rcases husers i v h with ⟨hi, hv⟩ | ⟨hi, h2⟩
      · subst hv
        show mapSet s.usernames u.username u2 u2.username = some u2
        have : u2.username = u.username := rfl
        rw [this, mapSet_self]
      · have hv : s.usernames v.username = some v := wf.userUsername _ _ h2
        have hne : v.username ≠ u.username := by
          intro hee; rw [hee, hsn] at hv; exact Option.noConfusion hv
        show mapSet s.usernames u.username u2 v.username = some v
        rw [mapSet_other _ _ hne]; exact hv
    · intro e v h
      rcases hemails e v h with ⟨he, hv⟩ | ⟨_, h2⟩
      · subst he; subst hv; rfl
      · exact wf.emailKey _ _ h2
    · intro e v h
      rcases hemails e v h with ⟨he, hv⟩ | ⟨he, h2⟩
      · subst hv
        show mapSet s.users c u2 u2.id = some u2
        have : u2.id = c := rfl
        rw [this, mapSet_self]
      · have hv : s.users v.id = some v := wf.emailUser _ _ h2
        have hne : v.id ≠ c := by
          intro hee; rw [hee] at hv; exact hfreshId v hv
        show mapSet s.users c u2 v.id = some v
        rw [mapSet_other _ _ hne]; exact hv
    · intro n v h
      rcases husernames n v h with ⟨hn, hv⟩ | ⟨_, h2⟩
      · subst hn; subst hv; rfl
      · exact wf.usernameKey _ _ h2
    · intro n v h
      rcases husernames n v h with ⟨hn, hv⟩ | ⟨hn, h2⟩
      · subst hv
        show mapSet s.users c u2 u2.id = some u2
        have : u2.id = c := rfl
        rw [this, mapSet_self]
      · have hv : s.users v.id = some v := wf.usernameUser _ _ h2
        have hne : v.id ≠ c := by
          intro hee; rw [hee] at hv; exact hfreshId v hv
        show mapSet s.users c u2 v.id = some v
        rw [mapSet_other _ _ hne]; exact hv

/-- The state after `Update` is unchanged (unknown id or conflict), or
there is a stored record under the given id, both conflict probes were
clear, and the state re-keys all three indices to the new record. -/
theorem Update_snd_cases (s : mockRepo) (u : User) :
    (s.Update u).2 = s ∨
    ∃ old, s.users u.id = some old ∧
      idConflict (s.emails u.email) old.id = false ∧
      idConflict (s.usernames u.username) old.id = false ∧
      (s.Update u).2 =
        { s with
          users := mapSet s.users u.id u
          emails := mapSet (mapDel s.emails old.email) u.email u
          usernames :=
            mapSet (mapDel s.usernames old.username) u.username u } := by
  unfold mockRepo.Update
  cases hold : s.users u.id with
  | none => simp
  | some old =>
    by_cases hE : idConflict (s.emails u.email) old.id
    · simp [hE]
    · by_cases hU : idConflict (s.usernames u.username) old.id
      · simp [hE, hU]
      · exact Or.inr ⟨old, rfl, by simpa using hE, by simpa using hU,
          by simp [hE, hU]⟩

theorem wf_Update (s : mockRepo) (u : User) (wf : WF s) :
    WF (s.Update u).2 := by
  rcases Update_snd_cases s u with h | ⟨old, hold, hE, hU, h⟩
  · rw [h]; exact wf
  · rw [h]
    have holdId : old.id = u.id := wf.userId _ _ hold
    have hEfact : s.emails u.email = none ∨ s.emails u.email = some old := by
      cases hse : s.emails u.email with
      | none => exact Or.inl rfl
      | some w =>
        right
        have hwid : w.id = old.id := by
          rw [hse] at hE
          simpa [idConflict] using hE
        have hw : s.users w.id = some w := wf.emailUser _ _ hse
        rw [hwid, holdId, hold] at hw
        have hww : old = w := Option.some.inj hw
        rw [hww]
    have hUfact : s.usernames u.username = none ∨
        s.usernames u.username = some old := by
      cases hsn : s.usernames u.username with
      | none => exact Or.inl rfl
      | some w =>
        right
        have hwid : w.id = old.id := by
          rw [hsn] at hU
          simpa [idConflict] using hU
        have hw : s.users w.id = some w := wf.usernameUser _ _ hsn
        rw [hwid, holdId, hold] at hw
        have hww : old = w := Option.some.inj hw
        rw [hww]
    have husers : ∀ i v, mapSet s.users u.id u i = some v →
        (i = u.id ∧ v = u) ∨ (i ≠ u.id ∧ s.users i = some v) := by
      intro i v h2
      by_cases hi : i = u.id
      · subst hi; rw [mapSet_self] at h2
        exact Or.inl ⟨rfl, (Option.some.inj h2).symm⟩
      · rw [mapSet_other _ _ hi] at h2; exact Or.inr ⟨hi, h2⟩
    have hemails2 : ∀ e v,
        mapSet (mapDel s.emails old.email) u.email u e = some v →
        (e = u.email ∧ v = u) ∨
          (e ≠ u.email ∧ e ≠ old.email ∧ s.emails e = some v) := by
      intro e v h2
      by_cases he : e = u.email
      · subst he; rw [mapSet_self] at h2
        exact Or.inl ⟨rfl, (Option.some.inj h2).symm⟩
      · rw [mapSet_other _ _ he] at h2
        by_cases heo : e = old.email
        · subst heo; rw [mapDel_self] at h2; exact Option.noConfusion h2
        · rw [mapDel_other _ heo] at h2; exact Or.inr ⟨he, heo, h2⟩
    have husernames2 : ∀ n v,
        mapSet (mapDel s.usernames old.username) u.username u n = some v →
        (n = u.username ∧ v = u) ∨
          (n ≠ u.username ∧ n ≠ old.username ∧ s.usernames n = some v) := by
      intro n v h2
      by_cases hn : n = u.username
      · subst hn; rw [mapSet_self] at h2
        exact Or.inl ⟨rfl, (Option.some.inj h2).symm⟩
      · rw [mapSet_other _ _ hn] at h2
        by_cases hno : n = old.username
        · subst hno; rw [mapDel_self] at h2; exact Option.noConfusion h2
        · rw [mapDel_other _ hno] at h2; exact Or.inr ⟨hn, hno, h2⟩
    have hstored_email : ∀ i v, i ≠ u.id → s.users i = some v →
        v.email ≠ u.email ∧ v.email ≠ old.email := by
      intro i v hi hv
      have hvv : s.emails v.email = some v := wf.userEmail _ _ hv
      have hvold : v ≠ old := by
        intro hveq
        apply hi
        rw [← wf.userId _ _ hv, hveq, holdId]
      constructor
      · intro hee
        rcases hEfact with hnone | hsome
        · rw [hee, hnone] at hvv; exact Option.noConfusion hvv
        · rw [hee, hsome] at hvv; exact hvold (Option.some.inj hvv).symm
      · intro hee
        have hww : s.emails old.email = some old := wf.userEmail _ _ hold
        rw [hee, hww] at hvv
        exact hvold (Option.some.inj hvv).symm
    have hstored_username : ∀ i v, i ≠ u.id → s.users i = some v →
        v.username ≠ u.username ∧ v.username ≠ old.username := by
      intro i v hi hv
      have hvv : s.usernames v.username = some v := wf.userUsername _ _ hv
      have hvold : v ≠ old := by
        intro hveq
        apply hi
        rw [← wf.userId _ _ hv, hveq, holdId]
      constructor
      · intro hee
        rcases hUfact with hnone | hsome
        · rw [hee, hnone] at hvv; exact Option.noConfusion hvv
        · rw [hee, hsome] at hvv; exact hvold (Option.some.inj hvv).symm
      · intro hee
        have hww : s.usernames old.username = some old :=
          wf.userUsername _ _ hold
        rw [hee, hww] at hvv
        exact hvold (Option.some.inj hvv).symm
    constructor
    · intro i v h2
      rcases husers i v h2 with ⟨hi, _⟩ | ⟨_, hv⟩
      · subst hi; exact wf.idBound _ _ hold
      · exact wf.idBound _ _ hv
    · intro i v h2
      rcases husers i v h2 with ⟨hi, hv⟩ | ⟨_, hv⟩
      · subst hi; subst hv; rfl
      · exact wf.userId _ _ hv
    · intro i v h2
      rcases husers i v h2 with ⟨hi, hv⟩ | ⟨hi, hv⟩
      · rw [hv]
        show mapSet (mapDel s.emails old.email) u.email u u.email = some u
        rw [mapSet_self]
      · obtain ⟨hne1, hne2⟩ := hstored_email i v hi hv
        show mapSet (mapDel s.emails old.email) u.email u v.email = some v
        rw [mapSet_other _ _ hne1, mapDel_other _ hne2]
        exact wf.userEmail _ _ hv
    · intro i v h2
      rcases husers i v h2 with ⟨hi, hv⟩ | ⟨hi, hv⟩
      · rw [hv]
        show mapSet (mapDel s.usernames old.username) u.username u u.username =
          some u
        rw [mapSet_self]
      · obtain ⟨hne1, hne2⟩ := hstored_username i v hi hv
        show mapSet (mapDel s.usernames old.username) u.username u v.username =
          some v
        rw [mapSet_other _ _ hne1, mapDel_other _ hne2]
        exact wf.userUsername _ _ hv
    · intro e v h2
      rcases hemails2 e v h2 with ⟨he, hv⟩ | ⟨_, _, hv⟩
      · subst he; subst hv; rfl
      · exact wf.emailKey _ _ hv
    · intro e v h2
      rcases hemails2 e v h2 with ⟨he, hv⟩ | ⟨he, heo, hv⟩
      · rw [hv]
        show mapSet s.users u.id u u.id = some u
        rw [mapSet_self]
      · have hvid : v.id ≠ u.id := by
          intro hid
          have hvu := wf.emailUser _ _ hv
          rw [hid, hold] at hvu
          have hvw : old = v := Option.some.inj hvu
          apply heo
          rw [← wf.emailKey _ _ hv, ← hvw]
        show mapSet s.users u.id u v.id = some v
        rw [mapSet_other _ _ hvid]
        exact wf.emailUser _ _ hv
    · intro n v h2
      rcases husernames2 n v h2 with ⟨hn, hv⟩ | ⟨_, _, hv⟩
      · subst hn; subst hv; rfl
      · exact wf.usernameKey _ _ hv
    · intro n v h2
      rcases husernames2 n v h2 with ⟨hn, hv⟩ | ⟨hn, hno, hv⟩
      · rw [hv]
        show mapSet s.users u.id u u.id = some u
        rw [mapSet_self]
      · have hvid : v.id ≠ u.id := by
          intro hid
          have hvu := wf.usernameUser _ _ hv
          rw [hid, hold] at hvu
          have hvw : old = v := Option.some.inj hvu
          apply hno
          rw [← wf.usernameKey _ _ hv, ← hvw]
        show mapSet s.users u.id u v.id = some v
        rw [mapSet_other _ _ hvid]
        exact wf.usernameUser _ _ hv

/-- The state after `Delete` is unchanged (unknown id), or there is a
stored record under the given id and the state removes it from all three
indices. -/
theorem Delete_snd_cases (s : mockRepo) (id : Int) :
    (s.Delete id).2 = s ∨
    ∃ w, s.users id = some w ∧
      (s.Delete id).2 =
        { s with
          users := mapDel s.users id
          emails := mapDel s.emails w.email
          usernames := mapDel s.usernames w.username } := by
  unfold mockRepo.Delete
  cases hold : s.users id with
  | none => simp
  | some w => exact Or.inr ⟨w, rfl, by simp⟩

theorem wf_Delete (s : mockRepo) (id : Int) (wf : WF s) :
    WF (s.Delete id).2 := by
  rcases Delete_snd_cases s id with h | ⟨w, hold, h⟩
  · rw [h]; exact wf
  · rw [h]
    have hwid : w.id = id := wf.userId _ _ hold
    have husers : ∀ i v, mapDel s.users id i = some v →
        i ≠ id ∧ s.users i = some v := by
      intro i v h2
      by_cases hi : i = id
      · subst hi; rw [mapDel_self] at h2; exact Option.noConfusion h2
      · rw [mapDel_other _ hi] at h2; exact ⟨hi, h2⟩
    have hemails : ∀ e v, mapDel s.emails w.email e = some v →
        e ≠ w.email ∧ s.emails e = some v := by
      intro e v h2
      by_cases he : e = w.email
      · subst he; rw [mapDel_self] at h2; exact Option.noConfusion h2
      · rw [mapDel_other _ he] at h2; exact ⟨he, h2⟩
    have husernames : ∀ n v, mapDel s.usernames w.username n = some v →
        n ≠ w.username ∧ s.usernames n = some v := by
      intro n v h2
      by_cases hn : n = w.username
      · subst hn; rw [mapDel_self] at h2; exact Option.noConfusion h2
      · rw [mapDel_other _ hn] at h2; exact ⟨hn, h2⟩
    have hne_w : ∀ i v, i ≠ id → s.users i = some v → v ≠ w := by
      intro i v hi hv hveq
      apply hi
      rw [← wf.userId _ _ hv, hveq, hwid]
    constructor
    · intro i v h2; exact wf.idBound _ _ (husers _ _ h2).2
    · intro i v h2; exact wf.userId _ _ (husers _ _ h2).2
    · intro i v h2
      obtain ⟨hi, hv⟩ := husers _ _ h2
      have hvw : v ≠ w := hne_w _ _ hi hv
      have hvv := wf.userEmail _ _ hv
      have hne : v.email ≠ w.email := by
        intro hee
        have hww := wf.userEmail _ _ hold
        rw [hee, hww] at hvv
        exact hvw (Option.some.inj hvv).symm
      show mapDel s.emails w.email v.email = some v
      rw [mapDel_other _ hne]
      exact wf.userEmail _ _ hv
    · intro i v h2
      obtain ⟨hi, hv⟩ := husers _ _ h2
      have hvw : v ≠ w := hne_w _ _ hi hv
      have hvv := wf.userUsername _ _ hv
      have hne : v.username ≠ w.username := by
        intro hee
        have hww := wf.userUsername _ _ hold
        rw [hee, hww] at hvv
        exact hvw (Option.some.inj hvv).symm
      show mapDel s.usernames w.username v.username = some v
      rw [mapDel_other _ hne]
      exact wf.userUsername _ _ hv
    · intro e v h2; exact wf.emailKey _ _ (hemails _ _ h2).2
    · intro e v h2
      obtain ⟨he, hv⟩ := hemails _ _ h2
      have hvid : v.id ≠ id := by
        intro hid
        have hvu := wf.emailUser _ _ hv
        rw [hid, hold] at hvu
        have hvw : w = v := Option.some.inj hvu
        apply he
        rw [← wf.emailKey _ _ hv, ← hvw]
      show mapDel s.users id v.id = some v
      rw [mapDel_other _ hvid]
      exact wf.emailUser _ _ hv
    · intro n v h2; exact wf.usernameKey _ _ (husernames _ _ h2).2
    · intro n v h2
      obtain ⟨hn, hv⟩ := husernames _ _ h2
      have hvid : v.id ≠ id := by
        intro hid
        have hvu := wf.usernameUser _ _ hv
        rw [hid, hold] at hvu
        have hvw : w = v := Option.some.inj hvu
        apply hn
        rw [← wf.usernameKey _ _ hv, ← hvw]
      show mapDel s.users id v.id = some v
      rw [mapDel_other _ hvid]
      exact wf.usernameUser _ _ hv

theorem wf_applyOp (s : mockRepo) (op : Op) (wf : WF s) :
    WF (applyOp s op) := by
  cases op with
  | create u => exact wf_Create s u wf
  | update u => exact wf_Update s u wf
  | delete id => exact wf_Delete s id wf

theorem wf_runOps (ops : List Op) (s : mockRepo) (wf : WF s) :
    WF (runOps s ops) := by
  induction ops generalizing s with
  | nil => exact wf
  | cons op rest ih => exact ih (applyOp s op) (wf_applyOp s op wf)

theorem mem_splits {α : Type} (l pre suf : List α) :
    (pre, suf) ∈ splits l ↔ pre ++ suf = l := by
  induction l generalizing pre suf with
  | nil =>
    simp [splits]
  | cons a rest ih =>
    simp only [splits, List.mem_cons, List.mem_map]
    constructor
    · rintro (h | ⟨⟨p1, p2⟩, hp, heq⟩)
      · obtain ⟨h1, h2⟩ := Prod.mk.injEq .. ▸ h
        rw [h1, h2]; rfl
      · obtain ⟨h1, h2⟩ := Prod.mk.injEq .. ▸ heq
        rw [← h1, ← h2]
        show a :: p1 ++ p2 = a :: rest
        rw [List.cons_append, (ih p1 p2).mp hp]
    · intro h
      cases pre with
      | nil =>
        left
        simp only [List.nil_append] at h
        rw [h]
      | cons b pre2 =>
        right
        simp only [List.cons_append, List.cons.injEq] at h
        exact ⟨(pre2, suf), (ih pre2 suf).mpr h.2, by rw [h.1]⟩

/-- `MatchString` semantics spelled out: the string contains a contiguous
substring that fully matches the email pattern. -/
theorem emailRegexpMatch_iff (s : String) :
    emailRegexpMatch s = true ↔
      ∃ pre mid post, s.data = pre ++ mid ++ post ∧
        matchesEmailFull mid = true := by
  unfold emailRegexpMatch containsEmailMatch
  rw [List.any_eq_true]
  constructor
  · rintro ⟨p, hp, hmatch⟩
    rw [List.any_eq_true] at hmatch
    obtain ⟨q, hq, hfull⟩ := hmatch
    refine ⟨p.1, q.1, q.2, ?_, hfull⟩
    have h1 : p.1 ++ p.2 = s.data := by
      rw [← Prod.mk.eta (p := p)] at hp; exact (mem_splits _ _ _).mp hp
    have h2 : q.1 ++ q.2 = p.2 := by
      rw [← Prod.mk.eta (p := q)] at hq; exact (mem_splits _ _ _).mp hq
    rw [← h1, ← h2, List.append_assoc]
  · rintro ⟨pre, mid, post, hdecomp, hfull⟩
    refine ⟨(pre, mid ++ post), ?_, ?_⟩
    · exact (mem_splits _ _ _).mpr (by rw [hdecomp, List.append_assoc])
    · rw [List.any_eq_true]
      exact ⟨(mid, post), (mem_splits _ _ _).mpr rfl, hfull⟩

/-- A successful `Create` assigned the next counter value as the id and
stored the record under all three indices. -/
theorem Create_ok_cases (s : mockRepo) (u u2 : User) (s2 : mockRepo)
    (hc : s.Create u = (.ok u2, s2)) :
    u2 = { u with id := s.idCnt + 1 } ∧
    s2 = { closed := s.closed
           idCnt := s.idCnt + 1
           users := mapSet s.users (s.idCnt + 1) u2
           emails := mapSet s.emails u.email u2
           usernames := mapSet s.usernames u.username u2 } := by
  unfold mockRepo.Create at hc
  by_cases hcl : s.closed
  · simp [hcl] at hc
  · simp only [hcl, Bool.false_eq_true, if_false] at hc
    cases hse : s.emails u.email with
    | some w => rw [hse] at hc; simp at hc
    | none =>
      rw [hse] at hc
      cases hsn : s.usernames u.username with
      | some w => rw [hsn] at hc; simp at hc
      | none =>
        rw [hsn] at hc
        simp only [Prod.mk.injEq] at hc
        obtain ⟨hfst, hsnd⟩ := hc
        have hu2 : u2 = { u with id := s.idCnt + 1 } :=
          (Except.ok.inj hfst).symm
        have hcf : s.closed = false := by
          cases hb : s.closed
          · rfl
          · exact absurd hb hcl
        refine ⟨hu2, ?_⟩
        rw [← hsnd, hu2, hcf]

/-- A failed `Create` leaves the three indices untouched. -/
theorem Create_error_maps (s : mockRepo) (u : User) (e : Err)
    (h : (s.Create u).1 = .error e) :
    (s.Create u).2.users = s.users ∧ (s.Create u).2.emails = s.emails ∧
      (s.Create u).2.usernames = s.usernames := by
  unfold mockRepo.Create at h ⊢
  by_cases hcl : s.closed
  · simp [hcl]
  · simp only [hcl, Bool.false_eq_true, if_false] at h ⊢
    cases hse : s.emails u.email with
    | some w => exact ⟨rfl, rfl, rfl⟩
    | none =>
      rw [hse] at h
      cases hsn : s.usernames u.username with
      | some w => exact ⟨rfl, rfl, rfl⟩
      | none =>
        rw [hsn] at h
        exact absurd h (by simp)

/-- Sample user for witnesses. -/
def userA : User :=
  { id := 0, email := "a@b.co", username := "alice", password := "pw1234" }

/-- Second sample user, distinct email and username. -/
def userC : User :=
  { id := 0, email := "c@d.co", username := "carol", password := "pw5678" }

/-- Sample user sharing `userA`'s email but not its username. -/
def userDupEmail : User :=
  { id := 0, email := "a@b.co", username := "bob", password := "pw9999" }

/-- The record stored for `userA` when it is created first (id 1). -/
def storedUserA : User :=
  { id := 1, email := "a@b.co", username := "alice", password := "pw1234" }

/-- The record stored for `userC` when it is created second (id 2). -/
def storedUserC : User :=
  { id := 2, email := "c@d.co", username := "carol", password := "pw5678" }

/-- A one-user store, for witnesses. -/
def store1 : mockRepo := (NewMockRepo.Create userA).2

theorem wf_store1 : WF store1 := wf_Create NewMockRepo userA wf_NewMockRepo

/-- C1: starting from an empty store, after any sequence of Create, Update
and Delete operations, no two distinct stored (non-deleted) users share an
email and no two share a username. -/
theorem c1_store_uniqueness (ops : List Op) (i j : Int) (u v : User)
    (hij : i ≠ j)
    (hu : (runOps NewMockRepo ops).users i = some u)
    (hv : (runOps NewMockRepo ops).users j = some v) :
    u.email ≠ v.email ∧ u.username ≠ v.username := by
  have wf := wf_runOps ops NewMockRepo wf_NewMockRepo
  constructor
  · intro he
    have h1 := wf.userEmail _ _ hu
    have h2 := wf.userEmail _ _ hv
    rw [he, h2] at h1
    have huv : v = u := Option.some.inj h1
    apply hij
    rw [← wf.userId _ _ hu, ← wf.userId _ _ hv, huv]
  · intro hn
    have h1 := wf.userUsername _ _ hu
    have h2 := wf.userUsername _ _ hv
    rw [hn, h2] at h1
    have huv : v = u := Option.some.inj h1
    apply hij
    rw [← wf.userId _ _ hu, ← wf.userId _ _ hv, huv]

theorem c1_witness :
    storedUserA.email ≠ storedUserC.email ∧
      storedUserA.username ≠ storedUserC.username :=
  c1_store_uniqueness [Op.create userA, Op.create userC] 1 2 storedUserA
    storedUserC (by decide) (by decide) (by decide)

/-- C2: on an open well-formed store, Create fails with `duplicateEmail`
when the email is already held by a stored user (in particular when both
the email and the username collide, because the email check runs first),
and with `duplicateUsername` when the username is held by a stored user
while the email is not. -/
theorem c2_create_duplicate_order (s : mockRepo) (u : User) (wf : WF s)
    (hopen : s.closed = false) :
    ((∃ i w, s.users i = some w ∧ w.email = u.email) →
        (s.Create u).1 = .error .duplicateEmail) ∧
    ((∀ i w, s.users i = some w → w.email ≠ u.email) →
      (∃ i w, s.users i = some w ∧ w.username = u.username) →
        (s.Create u).1 = .error .duplicateUsername) := by
  constructor
  · rintro ⟨i, w, hw, he⟩
    have hm : s.emails u.email = some w := by
      rw [← he]; exact wf.userEmail _ _ hw
    unfold mockRepo.Create
    simp [hopen, hm]
  · intro hno
    rintro ⟨i, w, hw, hn⟩
    have hnone : s.emails u.email = none := by
      cases hse : s.emails u.email with
      | none => rfl
      | some w2 =>
        exact absurd (wf.emailKey _ _ hse)
          (hno w2.id w2 (wf.emailUser _ _ hse))
    have hm : s.usernames u.username = some w := by
      rw [← hn]; exact wf.userUsername _ _ hw
    unfold mockRepo.Create
    simp [hopen, hnone, hm]

theorem c2_witness :
    (store1.Create userDupEmail).1 = .error .duplicateEmail :=
  (c2_create_duplicate_order store1 userDupEmail wf_store1 rfl).1
    ⟨1, storedUserA, by decide, by decide⟩

/-- C3: updating a stored user to a record with its own id and its current
email and username (any password) never reports a duplicate: the update
succeeds. -/
theorem c3_self_update_succeeds (s : mockRepo) (i : Int) (w : User)
    (pw : String) (wf : WF s) (hw : s.users i = some w) :
    (s.Update { id := i, email := w.email, username := w.username, password := pw }).1 = .ok () := by
  have hE : s.emails w.email = some w := wf.userEmail _ _ hw
  have hU : s.usernames w.username = some w := wf.userUsername _ _ hw
  unfold mockRepo.Update
  dsimp only
  rw [hw]
  simp [idConflict, hE, hU]

theorem c3_witness :
    (store1.Update { id := 1, email := storedUserA.email, username := storedUserA.username, password := "newpw" }).1 = .ok () :=
  c3_self_update_succeeds store1 1 storedUserA "newpw" wf_store1 (by decide)

/-- C4: for a valid user, a successful Create followed by Get at the
assigned id returns exactly the stored record, which agrees with the
created user on email, username and password and differs only in the
assigned id. -/
theorem c4_create_get_roundtrip (s : mockRepo) (u u2 : User) (s2 : mockRepo)
    (_hvalid : ValidateUser u = .ok ())
    (hc : s.Create u = (.ok u2, s2)) :
    s2.Get u2.id = .ok u2 ∧ u2.email = u.email ∧ u2.username = u.username ∧
      u2.password = u.password := by
  obtain ⟨hu2, hs2⟩ := Create_ok_cases s u u2 s2 hc
  refine ⟨?_, by rw [hu2], by rw [hu2], by rw [hu2]⟩
  rw [hs2]
  unfold mockRepo.Get
  dsimp only
  rw [show u2.id = s.idCnt + 1 by rw [hu2], mapSet_self]

theorem c4_witness :
    ((NewMockRepo.Create userA).2.Get storedUserA.id = .ok storedUserA) ∧
      storedUserA.email = userA.email ∧
      storedUserA.username = userA.username ∧
      storedUserA.password = userA.password :=
  c4_create_get_roundtrip NewMockRepo userA storedUserA
    (NewMockRepo.Create userA).2 rfl rfl

/-- C5: a failed Create changes nothing observable: every subsequent Get,
GetByEmail and GetByUsername returns exactly what it returned before the
failed call. -/
theorem c5_create_failure_atomic (s : mockRepo) (u : User) (e : Err)
    (h : (s.Create u).1 = .error e) :
    (∀ i, (s.Create u).2.Get i = s.Get i) ∧
    (∀ em, (s.Create u).2.GetByEmail em = s.GetByEmail em) ∧
    (∀ nm, (s.Create u).2.GetByUsername nm = s.GetByUsername nm) := by
  obtain ⟨h1, h2, h3⟩ := Create_error_maps s u e h
  refine ⟨fun i => ?_, fun em => ?_, fun nm => ?_⟩
  · unfold mockRepo.Get; rw [h1]
  · unfold mockRepo.GetByEmail; rw [h2]
  · unfold mockRepo.GetByUsername; rw [h3]

theorem c5_witness :
    (store1.Create userDupEmail).2.Get 1 = store1.Get 1 :=
  (c5_create_failure_atomic store1 userDupEmail Err.duplicateEmail rfl).1 1

/-- C6: ValidateUser applies its checks in the fixed order — empty required
fields, then email format, then username character set, then username
length, then password length — and returns the error of the first failing
check, so EmptyRequiredField takes priority over InvalidEmail, which takes
priority over InvalidUsername, then InvalidUsernameLength, then
PasswordTooShort. -/
theorem c6_validate_priority (u : User) :
    (hasEmptyField u → ValidateUser u = .error .emptyRequiredField) ∧
    (¬ hasEmptyField u → failsEmailCheck u →
        ValidateUser u = .error .invalidEmail) ∧
    (¬ hasEmptyField u → ¬ failsEmailCheck u → failsUsernameChars u →
        ValidateUser u = .error .invalidUsername) ∧
    (¬ hasEmptyField u → ¬ failsEmailCheck u → ¬ failsUsernameChars u →
        failsUsernameLength u →
        ValidateUser u = .error .invalidUsernameLength) ∧
    (¬ hasEmptyField u → ¬ failsEmailCheck u → ¬ failsUsernameChars u →
        ¬ failsUsernameLength u → failsPasswordLength u →
        ValidateUser u = .error .passwordTooShort) := by
  unfold ValidateUser
  refine ⟨fun h1 => ?_, fun h1 h2 => ?_, fun h1 h2 h3 => ?_,
    fun h1 h2 h3 h4 => ?_, fun h1 h2 h3 h4 h5 => ?_⟩
  · rw [if_pos
      (show u.email = "" ∨ u.username = "" ∨ u.password = "" from h1)]
  · rw [if_neg
        (show ¬(u.email = "" ∨ u.username = "" ∨ u.password = "") from h1),
      if_pos (show emailRegexpMatch u.email = false from h2)]
  · rw [if_neg
        (show ¬(u.email = "" ∨ u.username = "" ∨ u.password = "") from h1),
      if_neg (show ¬(emailRegexpMatch u.email = false) from h2),
      if_pos (show isAlphanumeric u.username = false from h3)]
  · rw [if_neg
        (show ¬(u.email = "" ∨ u.username = "" ∨ u.password = "") from h1),
      if_neg (show ¬(emailRegexpMatch u.email = false) from h2),
      if_neg (show ¬(isAlphanumeric u.username = false) from h3),
      if_pos
        (show goLen u.username < 3 ∨ 25 < goLen u.username from h4)]
  · rw [if_neg
        (show ¬(u.email = "" ∨ u.username = "" ∨ u.password = "") from h1),
      if_neg (show ¬(emailRegexpMatch u.email = false) from h2),
      if_neg (show ¬(isAlphanumeric u.username = false) from h3),
      if_neg
        (show ¬(goLen u.username < 3 ∨ 25 < goLen u.username) from h4),
      if_pos (show goLen u.password < 6 from h5)]

theorem c6_witness :
    ValidateUser { id := 0, email := "a@b.co", username := "ab!", password := "secret1" } = .error .invalidUsername :=
  (c6_validate_priority
      { id := 0, email := "a@b.co", username := "ab!", password := "secret1" }).2.2.1
    (by decide) (by decide) (by decide)

/-- C7 as stated fails on the code: Go's `MatchString` is unanchored, so an
email whose whole text does not have the `local@domain.tld` shape is still
accepted when some substring has it.  With email `"a@b.co "` (trailing
space) the whole string does not match the pattern, yet ValidateUser does
not return InvalidEmail — it accepts the user. -/
theorem c7_counterexample :
    specWholeEmailShape "a@b.co " = false ∧
      ValidateUser { id := 0, email := "a@b.co ", username := "abc", password := "secret1" } = .ok () := by
  exact ⟨by decide, rfl⟩

/-- C7 (amended): for a user with no empty required field, ValidateUser
returns InvalidEmail if and only if no contiguous substring of the email
matches the pattern `local@domain.tld` (letters/digits/._%+- local part,
domain, 2–6 letter TLD) — substring match, not whole-string match. -/
theorem c7_email_substring_match (u : User) (h : ¬ hasEmptyField u) :
    ValidateUser u = .error .invalidEmail ↔
      ¬ ∃ pre mid post, u.email.data = pre ++ mid ++ post ∧
          matchesEmailFull mid = true := by
  rw [← emailRegexpMatch_iff]
  unfold ValidateUser
  rw [if_neg
    (show ¬(u.email = "" ∨ u.username = "" ∨ u.password = "") from h)]
  by_cases he : emailRegexpMatch u.email = false
  · rw [if_pos he]
    simp [he]
  · rw [if_neg he]
    have htrue : emailRegexpMatch u.email = true := by
      cases hb : emailRegexpMatch u.email
      · exact absurd hb he
      · rfl
    constructor
    · intro hcontra
      split_ifs at hcontra <;> simp_all
    · intro hf
      exact absurd htrue hf

theorem c7_witness :
    ¬ ∃ pre mid post, ("nope" : String).data = pre ++ mid ++ post ∧
        matchesEmailFull mid = true :=
  (c7_email_substring_match
      { id := 0, email := "nope", username := "abc", password := "secret1" }
      (by decide)).mp rfl

/-- C8 as stated fails on the code: `len` in Go counts bytes, not Unicode
characters.  A username of 13 Cyrillic letters has 13 characters — inside
the claimed 3–25 range — but 26 UTF-8 bytes, and ValidateUser rejects it
with InvalidUsernameLength. -/
theorem c8_counterexample :
    ValidateUser { id := 0, email := "a@b.co", username := "ббббббббббббб", password := "secret1" } = .error .invalidUsernameLength ∧
      3 ≤ ("ббббббббббббб" : String).length ∧
      ("ббббббббббббб" : String).length ≤ 25 :=
  ⟨rfl, by decide, by decide⟩

/-- C8 (amended): for a user passing the empty-field, email-format and
username-character-set checks, ValidateUser returns InvalidUsernameLength
if and only if the username has fewer than 3 or more than 25 bytes in its
UTF-8 encoding (Go `len`), not characters. -/
theorem c8_username_byte_length (u : User) (h1 : ¬ hasEmptyField u)
    (h2 : ¬ failsEmailCheck u) (h3 : ¬ failsUsernameChars u) :
    ValidateUser u = .error .invalidUsernameLength ↔
      goLen u.username < 3 ∨ 25 < goLen u.username := by
  unfold ValidateUser
  rw [if_neg
      (show ¬(u.email = "" ∨ u.username = "" ∨ u.password = "") from h1),
    if_neg (show ¬(emailRegexpMatch u.email = false) from h2),
    if_neg (show ¬(isAlphanumeric u.username = false) from h3)]
  by_cases h4 : goLen u.username < 3 ∨ 25 < goLen u.username
  · rw [if_pos h4]
    simp [h4]
  · rw [if_neg h4]
    constructor
    · intro hcontra
      split_ifs at hcontra <;> simp_all
    · intro hf
      exact absurd hf h4

theorem c8_witness :
    ValidateUser { id := 0, email := "a@b.co", username := "ббббббббббббб", password := "secret1" } = .error .invalidUsernameLength :=
  (c8_username_byte_length
      { id := 0, email := "a@b.co", username := "ббббббббббббб", password := "secret1" }
      (by decide) (by decide) (by decide)).mpr (by decide)

/-- C9: AuthenticateUser returns userNotFound when no stored user has the
email; when a stored user has it, a verifying hash returns that user, a
bcrypt mismatch returns wrongPassword, and any other bcrypt failure is
propagated unmodified — never mapped to wrongPassword. -/
theorem c9_authenticate_cases (bc : String → String → BcryptOutcome)
    (s : mockRepo) (wf : WF s) (email pw : String) :
    ((∀ i w, s.users i = some w → w.email ≠ email) →
        AuthenticateUser bc s email pw = .error .userNotFound) ∧
    (∀ i w, s.users i = some w → w.email = email →
      (bc w.password pw = .ok → AuthenticateUser bc s email pw = .ok w) ∧
      (bc w.password pw = .mismatch →
          AuthenticateUser bc s email pw = .error .wrongPassword) ∧
      (∀ msg, bc w.password pw = .failure msg →
          AuthenticateUser bc s email pw = .error (.bcryptFailure msg))) := by
  constructor
  · intro hno
    have hnone : s.emails email = none := by
      cases hse : s.emails email with
      | none => rfl
      | some w2 =>
        exact absurd (wf.emailKey _ _ hse)
          (hno w2.id w2 (wf.emailUser _ _ hse))
    unfold AuthenticateUser mockRepo.GetByEmail
    rw [hnone]
  · intro i w hw he
    have hm : s.emails email = some w := by
      rw [← he]; exact wf.userEmail _ _ hw
    refine ⟨fun hbc => ?_, fun hbc => ?_, fun msg hbc => ?_⟩
    all_goals
      unfold AuthenticateUser mockRepo.GetByEmail CompareHashAndPassword
      rw [hm]
      dsimp only
      rw [hbc]

/-- Sample bcrypt outcome oracle for witnesses: a hash verifies exactly
against the password it tags. -/
def bcOracle : String → String → BcryptOutcome := fun h p =>
  if h = "hashof:" ++ p then .ok else .mismatch

theorem c9_witness :
    AuthenticateUser bcOracle store1 "a@b.co" "wrong" =
      .error .wrongPassword :=
  ((c9_authenticate_cases bcOracle store1 wf_store1 "a@b.co" "wrong").2 1
      storedUserA (by decide) (by decide)).2.1 (by decide)

/-- C10 fails on the code (a slip against the spec's own words): when the
INSERT of `mysqlRepo.Create` fails with a MySQL error whose number is not
1062 — for instance 1146, table does not exist — the function falls through
to `return nil`, reporting success although the backend reported failure;
the spec requires transport errors to be wrapped, never swallowed. -/
theorem c10_transport_error_swallowed :
    mysqlCreate (SqlOutcome.mysqlErr 1146 "table services.users does not exist") none = none :=
  rfl


end Services
